import Mathlib

/-!
# Verification of the Tantra admin backend (`src/app.py`)

Shallow embedding of the participant resolution / listing / export pipeline
of the Flask + Firestore application, together with theorems settling the
frozen claims about it.

Modelling conventions:
* A Firestore document of the loosely-typed collections (`participants`,
  `users`, inline `participant` objects) is an association list
  `Doc = List (String × String)`; a collection is a `List (String × Doc)`
  pairing each document id with its data, in stream order.  A missing key
  and a `None`-valued key are identified (both read back as `none` through
  `dict.get`).  Field values are restricted to strings, which covers every
  field the code reads from these collections.
* Documents of the fixed-schema collections (`departments`, `events`,
  registration records) are Lean structures with one `Option` field per key
  the code reads; `none` models an absent key.
* Python truthiness on an optional string (`None` and `""` falsy) is
  `pyTruthy`; the `a or b` idiom on such values is `pyOr`.
-/

/-- A schemaless Firestore document: association list from field name to
string value, in insertion order. -/
abbrev Doc := List (String × String)

/-- `d.get k` for a Python dict (returns `None` when the key is absent). -/
def docField (d : Doc) (k : String) : Option String :=
  (d.find? (fun p => p.1 = k)).map (fun p => p.2)

/-- Python truthiness of an optional string: `None` and `""` are falsy. -/
def pyTruthy : Option String → Bool
  | none => false
  | some s => !(s = "")

/-- Python `a or b` on optional strings: `b` when `a` is falsy. -/
def pyOr (a b : Option String) : Option String :=
  if pyTruthy a then a else b

/-- Python `a or b` where `b` is a plain (always-present) string, as in
`p.get('department') or ''`. -/
def pyOrD (a : Option String) (b : String) : String :=
  match a with
  | some s => if s = "" then b else s
  | none => b

/-- A document of the `events` collection (fields written by `add_event`
and read by the handlers).  `status` is an integer (`1` open / `0`
closed), `idField` models the numeric `id` field. -/
structure EventDoc where
  idField : Option Int := none
  department : Option String := none
  dept_id : Option String := none
  name : Option String := none
  description : Option String := none
  date : Option String := none
  time : Option String := none
  venue : Option String := none
  image_url : Option String := none
  payment_qr_url : Option String := none
  price : Option String := none
  prize : Option String := none
  status : Option Int := none
  created_at : Option Nat := none
deriving DecidableEq, Repr

/-- A document of the `departments` collection. -/
structure DeptDoc where
  name : Option String := none
  description : Option String := none
  logo_url : Option String := none
  qr_url : Option String := none
deriving DecidableEq, Repr

/-- A document of the `registrations` collection, with one field per key
`_resolve_participant_from_registration` and `_gather_participants` read.
`participant` models an inline participant dict when present. -/
structure RegRecord where
  participant : Option Doc := none
  participant_id : Option String := none
  user_id : Option String := none
  uid : Option String := none
  participant_email : Option String := none
  email : Option String := none
  user_email : Option String := none
  event_id : Option String := none
  transaction_id : Option String := none
deriving DecidableEq, Repr

/-- The Firestore database state: one list of `(document id, data)` pairs
per collection, in stream order. -/
structure Store where
  departments : List (String × DeptDoc) := []
  events : List (String × EventDoc) := []
  participants : List (String × Doc) := []
  users : List (String × Doc) := []
  registrations : List (String × RegRecord) := []
deriving DecidableEq, Repr

/-- `db.collection(c).document(id).get()` on a schemaless collection:
the document data when a document with that id exists. -/
def docGet (c : List (String × Doc)) (id : String) : Option Doc :=
  (c.find? (fun p => p.1 = id)).map (fun p => p.2)

/-- `db.collection(c).where('email', '==', e).limit(1).stream()` followed by
returning the first yielded document: the first document in stream order
whose `email` field equals `e`. -/
def whereEmailLimit1 (c : List (String × Doc)) (e : String) : Option Doc :=
  (c.find? (fun p => docField p.2 "email" = some e)).map (fun p => p.2)

/-- `_resolve_participant_from_registration` (src/app.py:299-334).
Given a registration record, resolve participant data:
1. an inline `participant` dict, when truthy (non-empty), is returned;
2. else `participant_id or user_id or uid`, when truthy, is looked up as a
   document id in `participants`, then in `users`; when neither document
   exists the code falls through;
3. else (or on fall-through) `participant_email or email or user_email`,
   when truthy, is matched (`limit(1)`) against the `email` field of
   `participants`, then of `users`;
4. otherwise `None`. -/
def resolveParticipant (st : Store) (reg : RegRecord) : Option Doc :=
  match reg.participant with
  | some inline =>
    if inline.isEmpty then resolveById st reg else some inline
  | none => resolveById st reg
where
  resolveById (st : Store) (reg : RegRecord) : Option Doc :=
    let pid := pyOr reg.participant_id (pyOr reg.user_id reg.uid)
    if pyTruthy pid then
      match pid with
      | some p =>
        match docGet st.participants p with
        | some d => some d
        | none =>
          match docGet st.users p with
          | some d => some d
          | none => resolveByEmail st reg
      | none => resolveByEmail st reg
    else resolveByEmail st reg
  resolveByEmail (st : Store) (reg : RegRecord) : Option Doc :=
    let em := pyOr reg.participant_email (pyOr reg.email reg.user_email)
    if pyTruthy em then
      match em with
      | some e =>
        match whereEmailLimit1 st.participants e with
        | some d => some d
        | none => whereEmailLimit1 st.users e
      | none => none
    else none

/-! ## Claim C1: resolver contract -/

/-- First element of the list that is present (`isSome`), as the frozen
claim's reading of "if any of these fields is present, in priority
order". -/
def firstPresent (l : List (Option String)) : Option String :=
  l.foldr (fun a b => if a.isSome then a else b) none

/-- First element of the list that is Python-truthy (present and
non-empty). -/
def firstTruthy (l : List (Option String)) : Option String :=
  l.foldr (fun a b => if pyTruthy a then a else b) none

/-- The resolver contract exactly as the frozen claim states it: a strict
else-if chain on field *presence* — an embedded `participant` dict is
returned verbatim (even empty); else a present id field is looked up in
`participants` then `users`, and when neither document exists the chain
does NOT move on to the email step; else a present email field is matched
against `participants` then `users`; else `NotFound`. -/
def resolveClaimSpec (st : Store) (reg : RegRecord) : Option Doc :=
  match reg.participant with
  | some d => some d
  | none =>
    match firstPresent [reg.participant_id, reg.user_id, reg.uid] with
    | some p =>
      match docGet st.participants p with
      | some d => some d
      | none => docGet st.users p
    | none =>
      match firstPresent [reg.participant_email, reg.email, reg.user_email] with
      | some e =>
        match whereEmailLimit1 st.participants e with
        | some d => some d
        | none => whereEmailLimit1 st.users e
      | none => none

/-- Inline strategy of the amended resolver contract: a *non-empty*
embedded `participant` dict is returned verbatim. -/
def tryInline (reg : RegRecord) : Option Doc :=
  match reg.participant with
  | some d => if d.isEmpty then none else some d
  | none => none

/-- Id strategy of the amended resolver contract: the first truthy id
field, looked up as a document id in `participants` then `users`;
`none` when there is no truthy id field or no such document. -/
def tryById (st : Store) (reg : RegRecord) : Option Doc :=
  match firstTruthy [reg.participant_id, reg.user_id, reg.uid] with
  | some p =>
    match docGet st.participants p with
    | some d => some d
    | none => docGet st.users p
  | none => none

/-- Email strategy of the amended resolver contract: the first truthy
email field, matched (limit 1) against the `email` field of
`participants` then `users`. -/
def tryByEmail (st : Store) (reg : RegRecord) : Option Doc :=
  match firstTruthy [reg.participant_email, reg.email, reg.user_email] with
  | some e =>
    match whereEmailLimit1 st.participants e with
    | some d => some d
    | none => whereEmailLimit1 st.users e
  | none => none

/-- The amended resolver contract: three independent strategies tried in
order — inline, by id, by email — each falling through to the next when
it produces nothing. -/
def resolveAmendedSpec (st : Store) (reg : RegRecord) : Option Doc :=
  match tryInline reg with
  | some d => some d
  | none =>
    match tryById st reg with
    | some d => some d
    | none => tryByEmail st reg

/-- Registration record refuting C1 as stated: a `user_id` that matches no
document together with an email that does match a participant. -/
def regC1 : RegRecord := { user_id := some "x", email := some "a@b.c" }

/-- Store refuting C1 as stated. -/
def stC1 : Store := { participants := [("p1", [("email", "a@b.c"), ("name", "Al")])] }

/-! ## Claim C4: filename sanitization -/

/-- The character class `[a-z0-9]` of the sanitization regex. -/
def isLowerAlnum (c : Char) : Bool :=
  ('a' ≤ c && c ≤ 'z') || ('0' ≤ c && c ≤ '9')

/-- `re.sub(r'[^a-z0-9]+', '_', s)` on the character list of an already
lower-cased string: each maximal run of characters outside `[a-z0-9]`
becomes a single underscore.  `inRun` records whether the previous
character belonged to such a run. -/
def replaceRuns : List Char → Bool → List Char
  | [], _ => []
  | c :: rest, inRun =>
    if isLowerAlnum c then c :: replaceRuns rest false
    else if inRun then replaceRuns rest true
    else '_' :: replaceRuns rest true

/-- Remove trailing underscores (the right half of `s.strip('_')`). -/
def rstripU (l : List Char) : List Char :=
  (l.reverse.dropWhile (fun c => c = '_')).reverse

/-- `s.strip('_')` on a character list: remove leading and trailing
underscores. -/
def stripUnderscores (l : List Char) : List Char :=
  rstripU (l.dropWhile (fun c => c = '_'))

/-- The `_sanitize` helper of `export_participants` (src/app.py:471-478):
falsy (empty) input returns `''`; otherwise lower-case the string
(`Char.toLower`, agreeing with Python `str.lower` on ASCII), replace each
maximal run of non-`[a-z0-9]` characters with one underscore, strip
leading and trailing underscores, and fall back to `'value'` when the
result is empty. -/
def sanitize (s : String) : String :=
  if s = "" then ""
  else
    let t := stripUnderscores (replaceRuns (s.data.map Char.toLower) false)
    if t.isEmpty then "value" else String.mk t

/-- The maximal runs of `[a-z0-9]` characters of a character list, in
order. -/
def alnumRuns : List Char → List (List Char)
  | [] => []
  | c :: rest =>
    if isLowerAlnum c then
      (c :: rest.takeWhile isLowerAlnum) :: alnumRuns (rest.dropWhile isLowerAlnum)
    else alnumRuns rest
termination_by l => l.length
decreasing_by
  · exact Nat.lt_succ_of_le (List.dropWhile_sublist _).length_le
  · simp

/-- Join character runs with single underscores. -/
def joinRuns (rs : List (List Char)) : List Char :=
  (List.intersperse ['_'] rs).flatten

/-- Amended sanitization specification: the sanitized string is the
underscore-separated concatenation of the maximal alphanumeric runs of
the lower-cased input, `'value'` when a non-empty input has no
alphanumeric character, and `''` for empty input. -/
def sanitizeAmendedSpec (s : String) : String :=
  if s = "" then ""
  else
    let w := joinRuns (alnumRuns (s.data.map Char.toLower))
    if w.isEmpty then "value" else String.mk w

/-- The `tantra_<dept>_<event>` base filename built by
`export_participants` (src/app.py:524-527): each filter value is
sanitized when truthy, with literal fallbacks `all_departments` /
`all_events`. -/
def exportBaseFilename (dept_name event_name : Option String) : String :=
  let part_dept :=
    match dept_name with
    | some s => if s = "" then "all_departments" else sanitize s
    | none => "all_departments"
  let part_event :=
    match event_name with
    | some s => if s = "" then "all_events" else sanitize s
    | none => "all_events"
  "tantra_" ++ part_dept ++ "_" ++ part_event

/-! ## Claim C2: listing and export sort order -/

/-- Python `str.lower` (ASCII, via `Char.toLower`). -/
def pyLower (s : String) : String :=
  String.mk (s.data.map Char.toLower)

/-- Python `<` on strings, character-list level: lexicographic comparison
of code points. -/
def strLtB : List Char → List Char → Bool
  | [], [] => false
  | [], _ :: _ => true
  | _ :: _, [] => false
  | c :: cs, d :: ds =>
    if c.toNat < d.toNat then true
    else if d.toNat < c.toNat then false
    else strLtB cs ds

/-- Python `<` on strings. -/
def strLt (a b : String) : Bool := strLtB a.data b.data

/-- Python `<` on pairs, given strict comparisons of the components:
first component decides unless equal. -/
def lexLt {α β : Type} [DecidableEq α]
    (la : α → α → Bool) (lb : β → β → Bool) (x y : α × β) : Bool :=
  if la x.1 y.1 then true
  else if x.1 = y.1 then lb x.2 y.2
  else false

/-- Python `<` on `(dept_name, event_name, name)` key triples. -/
def keyLt3 (x y : String × String × String) : Bool :=
  lexLt strLt (lexLt strLt strLt) x y

/-- Python `<` on `(dept_name, name)` key pairs. -/
def keyLt2 (x y : String × String) : Bool :=
  lexLt strLt strLt x y

/-- One step of Python's stable ascending sort: insert `x` (which stood
later in the original list than everything in the already-sorted list)
before the first element whose key is not strictly smaller. -/
def pyInsert {α : Type} (lt : α → α → Bool) (x : α) : List α → List α
  | [] => [x]
  | y :: ys => if lt y x then y :: pyInsert lt x ys else x :: y :: ys

/-- Python's `sorted(l, key=...)` modelled as a stable insertion sort over
the strict key comparison `lt`.  For a strict weak order this produces
the same list as any stable ascending sort, hence the same list as
CPython's timsort. -/
def pySorted {α : Type} (lt : α → α → Bool) : List α → List α
  | [] => []
  | x :: xs => pyInsert lt x (pySorted lt xs)

/-- A normalized participant row as built by `view_participants`,
`export_participants` and `_gather_participants`.  Fields the code may
leave as Python `None` are `Option`; `dept_name` is always a plain
string (every builder applies an `or ''` / `.get(..., '')` default). -/
structure Row where
  name : Option String := none
  email : Option String := none
  phone : Option String := none
  college : Option String := none
  branch : Option String := none
  year : Option String := none
  event_name : Option String := none
  dept_name : String := ""
  event_id : Option String := none
  transaction_id : Option String := none
deriving DecidableEq, Repr

/-- The sort key `(r.get('dept_name',''), r.get('name',''))`, on rows
whose key fields are strings.  CAUTION on the `name` component: a
`view_participants` row always carries the key `'name'` with value
`p.get('name')`, so a participant document without a name puts Python
`None` — not `''` — into the key tuple, and CPython's sort raises
`TypeError` when that `None` is compared against a string name.  This
model totalizes the key with `Option.getD ""`; it is faithful only on
stores in which every participant document carries a `name` field, and
every sortedness theorem about `view_participants` below carries that
store hypothesis so the `getD` default is never relied upon.  (Export
rows build every field with a `''` default, so for them the key is exact
unconditionally.) -/
def rowKey2 (r : Row) : String × String :=
  (r.dept_name, r.name.getD "")

/-- The sort key `(r.get('dept_name',''), r.get('event_name',''),
r.get('name',''))`, on rows whose key fields are strings; the `name`
component has the same fidelity boundary as [rowKey2] (a `None` name
makes CPython raise `TypeError`, so view-listing theorems assume every
participant document carries a name). -/
def rowKey3 (r : Row) : String × String × String :=
  (r.dept_name, r.event_name.getD "", r.name.getD "")

/-- Strict row comparison by the three-component key. -/
def rowLt3 (a b : Row) : Bool := keyLt3 (rowKey3 a) (rowKey3 b)

/-- Strict row comparison by the two-component key. -/
def rowLt2 (a b : Row) : Bool := keyLt2 (rowKey2 a) (rowKey2 b)

/-- Resolution of a `dept_id` request parameter to a department name:
when the parameter is truthy and the department document exists, its
`name` field (src/app.py:357-361 and 481-485). -/
def deptNameOf (st : Store) (dept_id : Option String) : Option String :=
  match dept_id with
  | some did =>
    if did = "" then none
    else
      match (st.departments.find? (fun p => p.1 = did)).map (fun p => p.2) with
      | some d => d.name
      | none => none
  | none => none

/-- The row `view_participants` builds for one participant document
(src/app.py:365-386). -/
def viewRow (p : Doc) : Row :=
  { name := docField p "name"
    email := docField p "email"
    phone := docField p "phone"
    college := docField p "college"
    branch := docField p "branch/Class"
    year := docField p "year"
    event_name := some (pyOrD (docField p "event") "")
    dept_name := pyOrD (docField p "department") ""
    event_id := some ""
    transaction_id := pyOr (docField p "transactionId") (docField p "transaction_id") }

/-- The in-loop filter of `view_participants` (src/app.py:369-373): keep a
participant unless a truthy department-name filter or event filter
mismatches. -/
def viewKeep (sdn event_sel : Option String) (p : Doc) : Bool :=
  (!(pyTruthy sdn) || pyOrD (docField p "department") "" = sdn.getD "") &&
  (!(pyTruthy event_sel) || pyOrD (docField p "event") "" = event_sel.getD "")

/-- The unsorted `participants_info` rows of `view_participants`. -/
def viewRowsUnsorted (st : Store) (dept_id event_sel : Option String) : List Row :=
  (st.participants.map (fun p => p.2)).filterMap
    (fun p => if viewKeep (deptNameOf st dept_id) event_sel p then some (viewRow p) else none)

/-- The `participants_info` list of `view_participants`
(src/app.py:337-392): stream the participants collection, filter by
resolved department name and literal event name, and sort by
`(dept_name, event_name, name)` when an event was selected
(`sort_by_event`), else by `(dept_name, name)`. -/
def viewParticipants (st : Store) (dept_id event_sel : Option String) : List Row :=
  if pyTruthy event_sel then pySorted rowLt3 (viewRowsUnsorted st dept_id event_sel)
  else pySorted rowLt2 (viewRowsUnsorted st dept_id event_sel)

/-! ## Claims C5 and C9: export dispatch -/

/-- Resolution of the export `event_id` parameter to an event name
(src/app.py:487-496): when truthy, the event document's `name` when the
document exists, else the parameter itself taken as a name string. -/
def exportEventName (st : Store) (event_id : Option String) : Option String :=
  match event_id with
  | some eid =>
    if eid = "" then none
    else
      match (st.events.find? (fun p => p.1 = eid)).map (fun p => p.2) with
      | some e => e.name
      | none => some eid
  | none => none

/-- The export row built from one participant document
(src/app.py:505-517): every field defaulted to `''`, with
`transactionId or transaction_id` for the transaction id. -/
def exportRow (p : Doc) : Row :=
  { name := some ((docField p "name").getD "")
    email := some ((docField p "email").getD "")
    phone := some ((docField p "phone").getD "")
    college := some ((docField p "college").getD "")
    branch := some ((docField p "branch").getD "")
    year := some ((docField p "year").getD "")
    event_name := some ((docField p "event").getD "")
    dept_name := (docField p "department").getD ""
    event_id := none
    transaction_id := some (pyOrD (docField p "transactionId")
      ((docField p "transaction_id").getD "")) }

/-- The Firestore query filters of `export_participants`
(src/app.py:499-503): equality `where` on `department` and `event`, each
applied only when the resolved filter value is truthy. -/
def exportFilter (dept_name event_name : Option String) (p : Doc) : Bool :=
  (!(pyTruthy dept_name) || docField p "department" = some (dept_name.getD "")) &&
  (!(pyTruthy event_name) || docField p "event" = some (event_name.getD ""))

/-- The unsorted export rows. -/
def exportRowsUnsorted (st : Store) (dept_id event_id : Option String) : List Row :=
  (st.participants.map (fun p => p.2)).filterMap
    (fun p =>
      if exportFilter (deptNameOf st dept_id) (exportEventName st event_id) p then
        some (exportRow p)
      else none)

/-- The export rows after the unconditional sort by
`(dept_name, event_name, name)` (src/app.py:520). -/
def exportRows (st : Store) (dept_id event_id : Option String) : List Row :=
  pySorted rowLt3 (exportRowsUnsorted st dept_id event_id)

/-- The canonical export header order (src/app.py:522). -/
def exportHeaders : List String :=
  ["name", "email", "phone", "college", "branch", "year", "event_name",
   "dept_name", "transaction_id"]

/-- One table line per row, in header order: `[r.get(h, '') for h in
headers]` for the PDF table, equally the DataFrame column layout for XLSX
(row keys are exactly the headers in order; absent columns are appended
empty). -/
def rowCells (r : Row) : List String :=
  [r.name.getD "", r.email.getD "", r.phone.getD "", r.college.getD "",
   r.branch.getD "", r.year.getD "", r.event_name.getD "", r.dept_name,
   r.transaction_id.getD ""]

/-- Outcome of the export route: a generated file (filename, MIME type,
logical table contents) or an HTTP error response. -/
inductive ExportResult where
  | file (filename : String) (mimetype : String) (table : List (List String))
  | errorResp (status : Nat) (message : String)
deriving DecidableEq, Repr

/-- The `export_participants` route (src/app.py:460-567), with the
optional third-party libraries assumed importable (the `500` paths for a
missing `pandas`/`reportlab` are not modelled): resolve filters, build
and sort rows, and dispatch on the lower-cased `format` parameter
(default `xlsx`); any format other than `xlsx`/`pdf` yields a `400`
response and no file. -/
def export_participants (st : Store) (dept_id event_id fmtParam : Option String) :
    ExportResult :=
  let fmt := pyLower (fmtParam.getD "xlsx")
  let dn := deptNameOf st dept_id
  let en := exportEventName st event_id
  let rows := exportRows st dept_id event_id
  let base := exportBaseFilename dn en
  if fmt = "xlsx" then
    .file (base ++ ".xlsx")
      "application/vnd.openxmlformats-officedocument.spreadsheetml.sheet"
      (exportHeaders :: rows.map rowCells)
  else if fmt = "pdf" then
    .file (base ++ ".pdf") "application/pdf" (exportHeaders :: rows.map rowCells)
  else
    .errorResp 400 "Unsupported format. Allowed: xlsx, pdf"

/-- The export row list as claim C2 states it: the event name is part of
the sort key only when a specific event was requested. -/
def exportRowsClaim (st : Store) (dept_id event_id : Option String) : List Row :=
  if pyTruthy event_id then pySorted rowLt3 (exportRowsUnsorted st dept_id event_id)
  else pySorted rowLt2 (exportRowsUnsorted st dept_id event_id)

/-- Store refuting C2 as stated: two participants of one department whose
name order and event order disagree. -/
def stC2 : Store :=
  { participants :=
      [("p1", [("name", "Zoe"), ("event", "A"), ("department", "D")]),
       ("p2", [("name", "Amy"), ("event", "B"), ("department", "D")])] }

/-! ## Claims C3 and C6: registration-mode gathering -/

/-- `registrations.where('event_id', 'in', batch_ids).stream()`: the
registrations whose `event_id` field equals one of the batch values, in
collection order (documents without the field match nothing). -/
def regsInBatch (st : Store) (batch_ids : List String) : List RegRecord :=
  (st.registrations.map (fun p => p.2)).filter
    (fun r =>
      match r.event_id with
      | some e => batch_ids.contains e
      | none => false)

/-- The row `_gather_participants` appends for one registration
(src/app.py:437-455): `none` when the resolver yields nothing or a falsy
(empty) record, else the normalized row, with event data taken from
`event_map.get(ev_id, {})`. -/
def gatherRow (st : Store) (event_map : List (String × EventDoc)) (reg : RegRecord) :
    Option Row :=
  match resolveParticipant st reg with
  | none => none
  | some p =>
    if p.isEmpty then none
    else
      let ev_opt : Option EventDoc :=
        match reg.event_id with
        | some e => (event_map.find? (fun q => q.1 = e)).map (fun q => q.2)
        | none => none
      let ev_data : EventDoc := ev_opt.getD {}
      some
        { name := docField p "name"
          email := docField p "email"
          phone := docField p "phone"
          college := docField p "college"
          branch := docField p "branch"
          year := docField p "year"
          event_name := ev_data.name
          dept_name := pyOrD ev_data.department (pyOrD ev_data.dept_id "")
          event_id := reg.event_id
          transaction_id := reg.transaction_id }

/-- The rows contributed by one batched `in`-query. -/
def gatherBatchRows (st : Store) (event_map : List (String × EventDoc))
    (batch_ids : List String) : List Row :=
  (regsInBatch st batch_ids).filterMap (gatherRow st event_map)

/-- The batching loop of `_gather_participants` (src/app.py:432-455),
instrumented with the issued `in`-queries: for each slice
`event_ids[i:i+10]` exactly one query is issued and its rows appended.
Returns (queries in issue order, gathered rows). -/
def gatherLoop (st : Store) (event_map : List (String × EventDoc)) :
    List String → List (List String) × List Row
  | [] => ([], [])
  | e :: rest =>
    let batch := (e :: rest).take 10
    let rows := gatherBatchRows st event_map batch
    let next := gatherLoop st event_map ((e :: rest).drop 10)
    (batch :: next.1, rows ++ next.2)
termination_by l => l.length
decreasing_by
  simp only [List.length_drop, List.length_cons]
  omega

/-- The event-id enumeration of `_gather_participants`
(src/app.py:416-427): the single existing event document when a truthy
`event_id` is given (empty when it names no document), else all events
whose `department` equals the department id.  Returns the id list and
the id-to-document event map. -/
def gatherEventIds (st : Store) (dept_id : String) (event_id : Option String) :
    List String × List (String × EventDoc) :=
  if pyTruthy event_id then
    match st.events.find? (fun p => p.1 = event_id.getD "") with
    | some p => ([p.1], [p])
    | none => ([], [])
  else
    let evs := st.events.filter (fun p => p.2.department = some dept_id)
    (evs.map (fun p => p.1), evs)

/-- `_gather_participants` (src/app.py:409-457): no rows for a falsy
department id or when no event ids were found, else the rows of the
batching loop. -/
def gatherParticipants (st : Store) (dept_id : String) (event_id : Option String) :
    List Row :=
  if dept_id = "" then []
  else
    let ids := gatherEventIds st dept_id event_id
    if ids.1.isEmpty then []
    else (gatherLoop st ids.2 ids.1).2

/-- The number of registrations the Resolver can resolve at all, as claim
C6 counts them. -/
def resolvableCount (st : Store) (regs : List RegRecord) : Nat :=
  (regs.filter (fun r => (resolveParticipant st r).isSome)).length

/-- Store refuting C6 as stated: registration `r1` resolves to the
*empty* participant document `p1` — resolvable, yet its row is dropped by
the `if not p` truthiness test. -/
def stC6 : Store :=
  { participants := [("p1", [])]
    events := [("1", { department := some "d1", name := some "E" })]
    registrations := [("r1", { participant_id := some "p1", event_id := some "1" })] }

/-! ## Claim C7: dashboard unique participant count -/

/-- Python `str.strip()` (whitespace, both ends). -/
def pyStrip (s : String) : String :=
  String.mk
    (((s.data.dropWhile Char.isWhitespace).reverse.dropWhile Char.isWhitespace).reverse)

/-- The identity normalization `str(ident).strip().lower()`
(src/app.py:102). -/
def normalizeIdent (s : String) : String := pyLower (pyStrip s)

/-- The identity the dashboard derives for one participant document
(src/app.py:100-102): `email or phone or doc-id`, normalized, kept only
when the raw identity is truthy. -/
def identOf (docId : String) (p : Doc) : Option String :=
  let ident := pyOr (docField p "email") (pyOr (docField p "phone") (some docId))
  if pyTruthy ident then some (normalizeIdent (ident.getD "")) else none

/-- The dashboard's unique participant count (src/app.py:96-103): the
loop inserts each truthy normalized identity into a set and takes its
size. -/
def uniqueParticipantCount (st : Store) : Nat :=
  ((st.participants.filterMap (fun p => identOf p.1 p.2)).foldl
    (fun s i => insert i s) (∅ : Finset String)).card

/-- The set of normalized identities, as the claim describes the
count. -/
def uniqueIdentSet (st : Store) : Finset String :=
  (st.participants.filterMap (fun p => identOf p.1 p.2)).toFinset

/-! ## Claim C8: event id assignment -/

/-- Digit-string to number, `none` on any non-digit or on the empty
string. -/
def digitsToNat? (ds : List Char) : Option Nat :=
  if ds.isEmpty then none
  else
    ds.foldl
      (fun acc c =>
        match acc with
        | none => none
        | some n => if c.isDigit then some (n * 10 + (c.toNat - 48)) else none)
      (some 0)

/-- Python `int(s)` as applied to a document id (src/app.py:257):
optional surrounding whitespace, optional sign, one or more digits;
`none` models the swallowed `ValueError` (PEP-515 underscore grouping is
not modelled). -/
def pyInt? (s : String) : Option Int :=
  match ((s.data.dropWhile Char.isWhitespace).reverse.dropWhile
      Char.isWhitespace).reverse with
  | '+' :: ds => (digitsToNat? ds).map (fun n => (n : Int))
  | '-' :: ds => (digitsToNat? ds).map (fun n => -(n : Int))
  | ds => (digitsToNat? ds).map (fun n => (n : Int))

/-- The max-id scan of `add_event` (src/app.py:254-262): fold over all
event documents keeping the largest id that parses as an int, starting
from 0; unparsable ids are skipped. -/
def maxEventId (events : List (String × EventDoc)) : Int :=
  events.foldl
    (fun m p =>
      match pyInt? p.1 with
      | some eid => if eid > m then eid else m
      | none => m) 0

/-- The numeric values of the event ids that parse as ints. -/
def numericEventIds (events : List (String × EventDoc)) : List Int :=
  events.filterMap (fun p => pyInt? p.1)

/-- `db.collection('events').document(id).set(doc)`: overwrite the
document with that id, or create it. -/
def docSetEvent (evs : List (String × EventDoc)) (id : String) (d : EventDoc) :
    List (String × EventDoc) :=
  if evs.any (fun p => p.1 = id) then
    evs.map (fun p => if p.1 = id then (id, d) else p)
  else evs ++ [(id, d)]

/-- The form fields of `add_event` (upload handling reduced to the
resolved image URL). -/
structure EventForm where
  dept_id : String := ""
  name : String := ""
  description : String := ""
  date : String := ""
  time : String := ""
  venue : String := ""
  image_url : String := ""
  status : Int := 1
  price : String := ""
  prize : String := ""
deriving DecidableEq, Repr

/-- The POST branch of `add_event` (src/app.py:225-280): look up the
department QR, compute `new_id = max + 1` over all existing event ids,
and store the event document under `str(new_id)`.  Returns the new store
and the assigned id string. -/
def addEvent (st : Store) (f : EventForm) (now : Nat) : Store × String :=
  let payment_qr :=
    match (st.departments.find? (fun p => p.1 = f.dept_id)).map (fun p => p.2) with
    | some d => d.qr_url.getD ""
    | none => ""
  let new_id := maxEventId st.events + 1
  let doc : EventDoc :=
    { idField := some new_id
      department := some f.dept_id
      name := some f.name
      description := some f.description
      date := some f.date
      time := some f.time
      venue := some f.venue
      image_url := some f.image_url
      payment_qr_url := some payment_qr
      price := some f.price
      prize := some f.prize
      status := some f.status
      created_at := some now }
  ({ st with events := docSetEvent st.events (toString new_id) doc }, toString new_id)

/-! ## Claim C10: toggle status frame -/

/-- Document lookup in the events collection. -/
def evLookup (evs : List (String × EventDoc)) (k : String) : Option EventDoc :=
  (evs.find? (fun p => p.1 = k)).map (fun p => p.2)

/-- `update({'status': n})`: replace only the `status` field. -/
def setStatus (n : Int) (e : EventDoc) : EventDoc := { e with status := some n }

/-- `toggle_event_status` (src/app.py:284-296): no write for a falsy
`event_id` or a missing document; otherwise `status` is set to `0` when
the current status (default `1`) equals `1`, else to `1`, via an
`update` that touches only the `status` field of that document. -/
def toggleEventStatus (st : Store) (event_id : Option String) : Store :=
  if pyTruthy event_id then
    let eid := event_id.getD ""
    match evLookup st.events eid with
    | some ev =>
      let new_status : Int := if ev.status.getD 1 = 1 then 0 else 1
      { st with
        events := st.events.map
          (fun p => if p.1 = eid then (p.1, setStatus new_status p.2) else p) }
    | none => st
  else st

/-! ## Theorems -/

/-- The Python idiom `a or b or c` followed by a truthiness test selects
exactly the first truthy element of `[a, b, c]`. -/
theorem firstTruthy_pyOr (a b c : Option String) :
    firstTruthy [a, b, c] =
      (if pyTruthy (pyOr a (pyOr b c)) then pyOr a (pyOr b c) else none) := by
  unfold firstTruthy pyOr
  by_cases ha : pyTruthy a <;> by_cases hb : pyTruthy b <;> by_cases hc : pyTruthy c <;>
    simp [ha, hb, hc]

/-- The email branch of the resolver agrees with the email strategy of the
amended contract. -/
theorem resolveByEmail_spec (st : Store) (reg : RegRecord) :
    resolveParticipant.resolveByEmail st reg = tryByEmail st reg := by
  unfold resolveParticipant.resolveByEmail tryByEmail
  rw [firstTruthy_pyOr]
  by_cases h : pyTruthy (pyOr reg.participant_email (pyOr reg.email reg.user_email))
  · rcases he : pyOr reg.participant_email (pyOr reg.email reg.user_email) with _ | e
    · rw [he] at h; simp [pyTruthy] at h
    · rw [he] at h; simp [he, h]
  · simp [h]

/-- The id branch of the resolver agrees with the id strategy of the
amended contract, falling through to the email strategy when the id
strategy produces nothing. -/
theorem resolveById_spec (st : Store) (reg : RegRecord) :
    resolveParticipant.resolveById st reg =
      (match tryById st reg with
       | some d => some d
       | none => tryByEmail st reg) := by
  unfold resolveParticipant.resolveById tryById
  rw [firstTruthy_pyOr]
  by_cases h : pyTruthy (pyOr reg.participant_id (pyOr reg.user_id reg.uid))
  · rcases hp : pyOr reg.participant_id (pyOr reg.user_id reg.uid) with _ | p
    · rw [hp] at h; simp [pyTruthy] at h
    · rw [hp] at h
      simp only [hp, h, if_true]
      rcases docGet st.participants p with _ | d
      · rcases docGet st.users p with _ | d <;> simp [resolveByEmail_spec]
      · simp
  · simp [h, resolveByEmail_spec]

/-- C1 counterexample: the claim's else-if chain says a registration whose
id field names no document resolves to `NotFound`, but the code falls
through to the email step and resolves the participant by email. -/
theorem c1_resolver_counterexample :
    resolveParticipant stC1 regC1 = some [("email", "a@b.c"), ("name", "Al")] ∧
    resolveClaimSpec stC1 regC1 = none := by
  exact ⟨rfl, rfl⟩

/-- C1 (amended): resolution tries, in order with fall-through: (1) a
non-empty embedded `participant` dict, returned verbatim; (2) the first
truthy (non-empty) id field among `participant_id, user_id, uid`, looked
up in `participants` then `users`; (3) the first truthy email field among
`participant_email, email, user_email`, matched against the `email` field
of `participants` then `users`; (4) otherwise `NotFound`.  A failed id
lookup falls through to the email step. -/
theorem c1_resolver_amended (st : Store) (reg : RegRecord) :
    resolveParticipant st reg = resolveAmendedSpec st reg := by
  have hid := resolveById_spec st reg
  unfold resolveParticipant resolveAmendedSpec tryInline
  rcases reg with ⟨pt, pid, uids, uid, pem, em, uem, eid, tid⟩
  rcases pt with _ | d
  · simpa using hid
  · by_cases hd : d.isEmpty <;> simp [hd] <;> simpa using hid

/-- A `[a-z0-9]` character is not an underscore. -/
theorem alnum_ne_underscore {c : Char} (h : isLowerAlnum c = true) : c ≠ '_' := by
  intro he
  subst he
  exact absurd h (by decide)

/-- The head of a `dropWhile` result fails the predicate. -/
theorem head_dropWhile_false {p : Char → Bool} {l t : List Char} {c : Char}
    (h : l.dropWhile p = c :: t) : p c = false := by
  induction l with
  | nil => simp at h
  | cons a r ih =>
    rw [List.dropWhile_cons] at h
    by_cases ha : p a
    · rw [if_pos ha] at h; exact ih h
    · rw [if_neg ha] at h
      cases h
      simpa using ha

/-- Output of `replaceRuns` in in-run state never starts with an
underscore: its head, when any, is alphanumeric. -/
theorem replaceRuns_true_head {l : List Char} {c : Char} {x : List Char}
    (h : replaceRuns l true = c :: x) : isLowerAlnum c = true := by
  induction l generalizing c x with
  | nil => simp [replaceRuns] at h
  | cons a r ih =>
    by_cases ha : isLowerAlnum a
    · rw [replaceRuns, if_pos ha] at h
      cases h
      exact ha
    · rw [replaceRuns, if_neg ha, if_pos rfl] at h
      exact ih h

/-- In-run output of `replaceRuns` is unchanged by a leading-underscore
strip. -/
theorem dropWhile_replaceRuns_true (l : List Char) :
    (replaceRuns l true).dropWhile (fun c => c = '_') = replaceRuns l true := by
  cases hr : replaceRuns l true with
  | nil => simp
  | cons c x =>
    have hc := replaceRuns_true_head hr
    simp [List.dropWhile_cons, alnum_ne_underscore hc]

/-- Left-stripping underscores from the substituted string yields the
in-run substitution. -/
theorem lstrip_replaceRuns (l : List Char) :
    (replaceRuns l false).dropWhile (fun c => c = '_') = replaceRuns l true := by
  cases l with
  | nil => simp [replaceRuns]
  | cons a r =>
    by_cases ha : isLowerAlnum a
    · simp [replaceRuns, ha, List.dropWhile_cons, alnum_ne_underscore ha]
    · simp [replaceRuns, ha, List.dropWhile_cons, dropWhile_replaceRuns_true r]

/-- `replaceRuns` passes a leading alphanumeric run through unchanged. -/
theorem replaceRuns_false_peel (l : List Char) :
    replaceRuns l false =
      l.takeWhile isLowerAlnum ++ replaceRuns (l.dropWhile isLowerAlnum) false := by
  induction l with
  | nil => simp [replaceRuns]
  | cons a r ih =>
    by_cases ha : isLowerAlnum a
    · simp [replaceRuns, ha, List.takeWhile_cons, List.dropWhile_cons]
      exact ih
    · simp [List.takeWhile_cons, List.dropWhile_cons, ha]

/-- A list with no in-run substitution output has no alphanumeric runs. -/
theorem alnumRuns_nil_of_replaceRuns {l : List Char}
    (h : replaceRuns l true = []) : alnumRuns l = [] := by
  induction l with
  | nil => simp [alnumRuns]
  | cons a r ih =>
    by_cases ha : isLowerAlnum a
    · rw [replaceRuns, if_pos ha] at h
      cases h
    · rw [replaceRuns, if_neg ha, if_pos rfl] at h
      rw [alnumRuns, if_neg ha]
      exact ih h

/-- A list with no alphanumeric runs has empty in-run substitution
output. -/
theorem replaceRuns_nil_of_alnumRuns {l : List Char}
    (h : alnumRuns l = []) : replaceRuns l true = [] := by
  induction l with
  | nil => simp [replaceRuns]
  | cons a r ih =>
    by_cases ha : isLowerAlnum a
    · rw [alnumRuns, if_pos ha] at h
      cases h
    · rw [alnumRuns, if_neg ha] at h
      rw [replaceRuns, if_neg ha, if_pos rfl]
      exact ih h

/-- Right-stripping underscores from an all-alphanumeric list is the
identity. -/
theorem rstripU_all_alnum {t : List Char} (h : ∀ c ∈ t, isLowerAlnum c = true) :
    rstripU t = t := by
  unfold rstripU
  have hd : t.reverse.dropWhile (fun c => c = '_') = t.reverse := by
    cases hr : t.reverse with
    | nil => simp
    | cons c x =>
      have hc : c ∈ t := by
        rw [← List.mem_reverse, hr]
        exact List.mem_cons_self c x
      simp [List.dropWhile_cons, alnum_ne_underscore (h c hc)]
  rw [hd, List.reverse_reverse]

/-- Right-stripping underscores from `u ++ y` only affects `y` when `y`
contains a non-underscore character. -/
theorem rstripU_append {u y : List Char} (h : ∃ d ∈ y, ¬ d = '_') :
    rstripU (u ++ y) = u ++ rstripU y := by
  rcases h with ⟨d, hd, hdu⟩
  unfold rstripU
  have hne : y.reverse.dropWhile (fun c => c = '_') ≠ [] := by
    rw [Ne, List.dropWhile_eq_nil_iff]
    push_neg
    refine ⟨d, ?_, ?_⟩
    · simpa using hd
    · simpa using hdu
  rw [List.reverse_append, List.dropWhile_append,
    if_neg (by simpa [List.isEmpty_iff] using hne),
    List.reverse_append, List.reverse_reverse]

/-- A trailing underscore is removed by the right strip. -/
theorem rstripU_append_underscore (t : List Char) :
    rstripU (t ++ ['_']) = rstripU t := by
  unfold rstripU
  rw [List.reverse_append]
  simp [List.dropWhile_cons]

/-- Right-stripping the in-run substituted string yields exactly the
underscore-joined alphanumeric runs. -/
theorem rstripU_replaceRuns :
    ∀ l : List Char, rstripU (replaceRuns l true) = joinRuns (alnumRuns l)
  | [] => by simp [replaceRuns, alnumRuns, joinRuns, rstripU]
  | a :: r => by
    by_cases ha : isLowerAlnum a
    · have hpeel : replaceRuns (a :: r) true
          = (a :: r.takeWhile isLowerAlnum) ++ replaceRuns (r.dropWhile isLowerAlnum) false := by
        rw [replaceRuns, if_pos ha, replaceRuns_false_peel r]
        simp
      have htal : ∀ c ∈ a :: r.takeWhile isLowerAlnum, isLowerAlnum c = true := by
        intro c hc
        rcases List.mem_cons.mp hc with h1 | h2
        · subst h1; exact ha
        · exact List.mem_takeWhile_imp h2
      rw [alnumRuns, if_pos ha, hpeel]
      cases hd : r.dropWhile isLowerAlnum with
      | nil =>
        simp only [replaceRuns, List.append_nil]
        rw [rstripU_all_alnum htal]
        simp [alnumRuns, joinRuns]
      | cons b d' =>
        have hb : isLowerAlnum b = false := head_dropWhile_false hd
        rw [replaceRuns, if_neg (by simp [hb]), if_neg (by simp)]
        rw [alnumRuns, if_neg (by simp [hb])]
        cases hy : replaceRuns d' true with
        | nil =>
          have hruns : alnumRuns d' = [] := alnumRuns_nil_of_replaceRuns hy
          rw [hruns]
          have h1 : (a :: r.takeWhile isLowerAlnum) ++ '_' :: ([] : List Char)
              = (a :: r.takeWhile isLowerAlnum) ++ ['_'] := rfl
          rw [h1, rstripU_append_underscore, rstripU_all_alnum htal]
          simp [joinRuns]
        | cons e x =>
          have he := replaceRuns_true_head hy
          have hrne : alnumRuns d' ≠ [] := by
            intro hz
            rw [replaceRuns_nil_of_alnumRuns hz] at hy
            cases hy
          have IH := rstripU_replaceRuns d'
          rw [← hy]
          have hsplit : (a :: r.takeWhile isLowerAlnum) ++ '_' :: replaceRuns d' true
              = ((a :: r.takeWhile isLowerAlnum) ++ ['_']) ++ replaceRuns d' true := by
            simp
          rw [hsplit, rstripU_append ⟨e, by rw [hy]; exact List.mem_cons_self e x,
            by simpa using alnum_ne_underscore he⟩]
          rw [IH]
          cases hruns : alnumRuns d' with
          | nil => exact absurd hruns hrne
          | cons run rest =>
            simp [joinRuns, List.intersperse_cons_cons]
    · have IH := rstripU_replaceRuns r
      rw [replaceRuns, if_neg ha, if_pos rfl, alnumRuns, if_neg ha]
      exact IH
termination_by l => l.length
decreasing_by
  · simp only [List.length_cons]
    have h1 : (r.dropWhile isLowerAlnum).length ≤ r.length :=
      (List.dropWhile_sublist _).length_le
    rw [hd] at h1
    simp only [List.length_cons] at h1
    omega
  · simp

/-- The substitute-then-strip sanitization core equals the
underscore-joined maximal alphanumeric runs. -/
theorem stripUnderscores_replaceRuns (l : List Char) :
    stripUnderscores (replaceRuns l false) = joinRuns (alnumRuns l) := by
  unfold stripUnderscores
  rw [lstrip_replaceRuns]
  exact rstripU_replaceRuns l

/-- C4 counterexample: sanitizing the empty string yields the empty
string (the code returns `''` for falsy input before the `'value'`
fallback is reached), not `"value"` as the claim states. -/
theorem c4_filename_counterexample :
    sanitize "" = "" ∧ ("" : String) ≠ "value" := by
  exact ⟨rfl, by decide⟩

/-- C4 (amended): the export filename stem is
`tantra_<sanitized_dept>_<sanitized_event>`, where sanitization
lower-cases its input, replaces each maximal run of non-alphanumeric
characters with a single underscore, strips leading and trailing
underscores, and yields `"value"` when a *non-empty* input reduces to
empty — while the empty string sanitizes to `""` — in particular
`sanitize "Computer Science & Engg." = "computer_science_engg"`; absent
department/event filters yield the literal tokens `all_departments` /
`all_events`. -/
theorem c4_filename_amended :
    (∀ s : String, sanitize s = sanitizeAmendedSpec s) ∧
    sanitize "Computer Science & Engg." = "computer_science_engg" ∧
    sanitize "" = "" ∧
    exportBaseFilename none none = "tantra_all_departments_all_events" ∧
    (∀ dn en : String, dn ≠ "" → en ≠ "" →
      exportBaseFilename (some dn) (some en) =
        "tantra_" ++ sanitize dn ++ "_" ++ sanitize en) := by
  refine ⟨?_, by decide, rfl, by decide, ?_⟩
  · intro s
    unfold sanitize sanitizeAmendedSpec
    by_cases h : s = "" <;> simp [h, stripUnderscores_replaceRuns]
  · intro dn en h1 h2
    unfold exportBaseFilename
    simp [h1, h2]

/-- Witness for C4 (amended) at a concrete department and event name. -/
theorem c4_filename_witness :
    exportBaseFilename (some "Computer Science & Engg.") (some "Robo & Race") =
      "tantra_" ++ sanitize "Computer Science & Engg." ++ "_" ++ sanitize "Robo & Race" :=
  c4_filename_amended.2.2.2.2 "Computer Science & Engg." "Robo & Race"
    (by decide) (by decide)

/-- C5: any export format other than `xlsx` and `pdf` (compared after
lower-casing, with `xlsx` as the default for an absent parameter)
produces no file and yields the explicit HTTP 400 response with its
descriptive message. -/
theorem c5_unsupported_format (st : Store) (dept_id event_id fmtParam : Option String)
    (h1 : pyLower (fmtParam.getD "xlsx") ≠ "xlsx")
    (h2 : pyLower (fmtParam.getD "xlsx") ≠ "pdf") :
    export_participants st dept_id event_id fmtParam =
      ExportResult.errorResp 400 "Unsupported format. Allowed: xlsx, pdf" := by
  unfold export_participants
  simp [h1, h2]

/-- Witness for C5 at the concrete format value `"CSV"`. -/
theorem c5_unsupported_format_witness :
    export_participants {} none none (some "CSV") =
      ExportResult.errorResp 400 "Unsupported format. Allowed: xlsx, pdf" :=
  c5_unsupported_format {} none none (some "CSV") (by decide) (by decide)

/-- C9: with no department or event filter and no participant rows, the
export still returns a file for each supported format, whose logical
table is exactly the canonical header row and whose filename is
`tantra_all_departments_all_events.<ext>`.  The default format (absent
parameter) is `xlsx`. -/
theorem c9_empty_export (st : Store) (h : st.participants = []) :
    export_participants st none none none =
      ExportResult.file "tantra_all_departments_all_events.xlsx"
        "application/vnd.openxmlformats-officedocument.spreadsheetml.sheet"
        [["name", "email", "phone", "college", "branch", "year", "event_name",
          "dept_name", "transaction_id"]] ∧
    export_participants st none none (some "pdf") =
      ExportResult.file "tantra_all_departments_all_events.pdf"
        "application/pdf"
        [["name", "email", "phone", "college", "branch", "year", "event_name",
          "dept_name", "transaction_id"]] := by
  constructor <;>
    simp [export_participants, exportRows, exportRowsUnsorted, h, pySorted,
      deptNameOf, exportEventName, exportBaseFilename, exportHeaders, pyLower]

/-- Witness for C9 at the concrete empty store. -/
theorem c9_empty_export_witness :
    export_participants {} none none none =
      ExportResult.file "tantra_all_departments_all_events.xlsx"
        "application/vnd.openxmlformats-officedocument.spreadsheetml.sheet"
        [["name", "email", "phone", "college", "branch", "year", "event_name",
          "dept_name", "transaction_id"]] :=
  (c9_empty_export {} rfl).1

/-- Characters with equal code points are equal. -/
theorem char_eq_of_toNat_eq {a b : Char} (h : a.toNat = b.toNat) : a = b :=
  Char.ext (UInt32.ext h)

/-- Strict string comparison is irreflexive. -/
theorem strLtB_irrefl : ∀ l : List Char, strLtB l l = false
  | [] => rfl
  | c :: cs => by simp [strLtB, strLtB_irrefl cs]

/-- Strict string comparison is transitive. -/
theorem strLtB_trans : ∀ a b c : List Char,
    strLtB a b = true → strLtB b c = true → strLtB a c = true
  | a, [], _ => by intro h1 _; cases a <;> simp [strLtB] at h1
  | [], _ :: _, [] => by intro _ h2; simp [strLtB] at h2
  | [], _ :: _, _ :: _ => by intro _ _; simp [strLtB]
  | _ :: _, _ :: _, [] => by intro _ h2; simp [strLtB] at h2
  | x :: xs, y :: ys, z :: zs => by
    intro h1 h2
    simp only [strLtB] at h1 h2 ⊢
    split_ifs at h1 h2 ⊢ <;> try rfl
    all_goals try omega
    all_goals exact strLtB_trans xs ys zs h1 h2

/-- Two lists neither of which is strictly below the other are equal. -/
theorem strLtB_conn : ∀ a b : List Char,
    strLtB a b = false → strLtB b a = false → a = b
  | [], [] => by intro _ _; rfl
  | [], _ :: _ => by intro h1 _; simp [strLtB] at h1
  | _ :: _, [] => by intro _ h2; simp [strLtB] at h2
  | x :: xs, y :: ys => by
    intro h1 h2
    simp only [strLtB] at h1 h2
    split_ifs at h1 h2 <;> try omega
    have hxy : x = y := char_eq_of_toNat_eq (by omega)
    rw [hxy, strLtB_conn xs ys h1 h2]

/-- `strLt` is irreflexive. -/
theorem strLt_irrefl (a : String) : strLt a a = false := strLtB_irrefl a.data

/-- `strLt` is transitive. -/
theorem strLt_trans {a b c : String} (h1 : strLt a b = true) (h2 : strLt b c = true) :
    strLt a c = true := strLtB_trans a.data b.data c.data h1 h2

/-- Two strings neither of which is strictly below the other are
equal. -/
theorem strLt_conn {a b : String} (h1 : strLt a b = false) (h2 : strLt b a = false) :
    a = b := String.ext (strLtB_conn a.data b.data h1 h2)

section LexLemmas

variable {α β : Type} [DecidableEq α] {la : α → α → Bool} {lb : β → β → Bool}

/-- Characterization of a true lexicographic comparison. -/
theorem lexLt_eq_true_iff {x y : α × β} :
    lexLt la lb x y = true ↔
      (la x.1 y.1 = true ∨ (x.1 = y.1 ∧ lb x.2 y.2 = true)) := by
  unfold lexLt
  split_ifs with h1 h2
  · simp [h1]
  · rw [h2] at h1 ⊢
    simp [h1]
  · simp [h1, h2]

/-- Characterization of a false lexicographic comparison. -/
theorem lexLt_eq_false_iff {x y : α × β} :
    lexLt la lb x y = false ↔
      (la x.1 y.1 = false ∧ (x.1 = y.1 → lb x.2 y.2 = false)) := by
  unfold lexLt
  split_ifs with h1 h2
  · simp [h1]
  · rw [h2] at h1 ⊢
    simp [h1]
  · simp [h1, h2]

/-- Lexicographic comparison is irreflexive when its components are. -/
theorem lexLt_irrefl (hira : ∀ a, la a a = false) (hirb : ∀ b, lb b b = false)
    (x : α × β) : lexLt la lb x x = false := by
  simp [lexLt, hira, hirb]

/-- Lexicographic comparison is transitive when its components are and
the first component comparison is connex. -/
theorem lexLt_trans
    (htra : ∀ a b c, la a b = true → la b c = true → la a c = true)
    (htrb : ∀ a b c, lb a b = true → lb b c = true → lb a c = true)
    {x y z : α × β}
    (h1 : lexLt la lb x y = true) (h2 : lexLt la lb y z = true) :
    lexLt la lb x z = true := by
  rw [lexLt_eq_true_iff] at h1 h2 ⊢
  rcases h1 with ha | ⟨he, hb⟩
  · rcases h2 with ha2 | ⟨he2, _⟩
    · exact Or.inl (htra _ _ _ ha ha2)
    · exact Or.inl (he2 ▸ ha)
  · rcases h2 with ha2 | ⟨he2, hb2⟩
    · exact Or.inl (he ▸ ha2)
    · exact Or.inr ⟨he.trans he2, htrb _ _ _ hb hb2⟩

/-- Lexicographic comparison is connex when its components are. -/
theorem lexLt_conn
    (hconna : ∀ a b, la a b = false → la b a = false → a = b)
    (hconnb : ∀ a b, lb a b = false → lb b a = false → a = b)
    {x y : α × β}
    (h1 : lexLt la lb x y = false) (h2 : lexLt la lb y x = false) : x = y := by
  rw [lexLt_eq_false_iff] at h1 h2
  have he : x.1 = y.1 := hconna _ _ h1.1 h2.1
  have hb : x.2 = y.2 := hconnb _ _ (h1.2 he) (h2.2 he.symm)
  exact Prod.ext he hb

end LexLemmas

/-- A transitive irreflexive Boolean comparison is asymmetric. -/
theorem blt_asym {γ : Type} {lt : γ → γ → Bool}
    (hirr : ∀ a, lt a a = false)
    (htr : ∀ a b c, lt a b = true → lt b c = true → lt a c = true)
    {a b : γ} (h : lt a b = true) : lt b a = false := by
  cases hc : lt b a with
  | false => rfl
  | true =>
    have := htr _ _ _ h hc
    rw [hirr] at this
    cases this

/-- For a transitive, irreflexive, connex Boolean comparison, the derived
non-strict order (`lt b a = false`, read `a` at most `b`) is
transitive. -/
theorem ble_trans {γ : Type} {lt : γ → γ → Bool}
    (hirr : ∀ a, lt a a = false)
    (htr : ∀ a b c, lt a b = true → lt b c = true → lt a c = true)
    (hconn : ∀ a b, lt a b = false → lt b a = false → a = b)
    {a b c : γ} (h1 : lt b a = false) (h2 : lt c b = false) : lt c a = false := by
  cases hca : lt c a with
  | false => rfl
  | true =>
    exfalso
    cases hab : lt a b with
    | false =>
      have heq : a = b := hconn a b hab h1
      subst heq
      cases hbc : lt a c with
      | false =>
        have heq2 : a = c := hconn a c hbc h2
        subst heq2
        rw [hirr] at hca
        cases hca
      | true =>
        have := htr _ _ _ hbc hca
        rw [hirr] at this
        cases this
    | true =>
      cases hbc : lt b c with
      | false =>
        have heq : b = c := hconn b c hbc h2
        subst heq
        have := htr _ _ _ hca hab
        rw [hirr] at this
        cases this
      | true =>
        have h3 := htr _ _ _ hab hbc
        have := htr _ _ _ h3 hca
        rw [hirr] at this
        cases this

/-- `keyLt2` is irreflexive. -/
theorem keyLt2_irrefl (x : String × String) : keyLt2 x x = false :=
  lexLt_irrefl strLt_irrefl strLt_irrefl x

/-- `keyLt2` is transitive. -/
theorem keyLt2_trans {x y z : String × String}
    (h1 : keyLt2 x y = true) (h2 : keyLt2 y z = true) : keyLt2 x z = true := by
  unfold keyLt2 at h1 h2 ⊢
  refine lexLt_trans ?_ ?_ h1 h2
  · exact fun _ _ _ ha hb => strLt_trans ha hb
  · exact fun _ _ _ ha hb => strLt_trans ha hb

/-- `keyLt2` is connex. -/
theorem keyLt2_conn {x y : String × String}
    (h1 : keyLt2 x y = false) (h2 : keyLt2 y x = false) : x = y := by
  unfold keyLt2 at h1 h2
  refine lexLt_conn ?_ ?_ h1 h2
  · exact fun _ _ ha hb => strLt_conn ha hb
  · exact fun _ _ ha hb => strLt_conn ha hb

/-- `keyLt3` is irreflexive. -/
theorem keyLt3_irrefl (x : String × String × String) : keyLt3 x x = false :=
  lexLt_irrefl strLt_irrefl keyLt2_irrefl x

/-- `keyLt3` is transitive. -/
theorem keyLt3_trans {x y z : String × String × String}
    (h1 : keyLt3 x y = true) (h2 : keyLt3 y z = true) : keyLt3 x z = true := by
  unfold keyLt3 at h1 h2 ⊢
  refine lexLt_trans ?_ ?_ h1 h2
  · exact fun _ _ _ ha hb => strLt_trans ha hb
  · exact fun _ _ _ ha hb => keyLt2_trans ha hb

/-- `keyLt3` is connex. -/
theorem keyLt3_conn {x y : String × String × String}
    (h1 : keyLt3 x y = false) (h2 : keyLt3 y x = false) : x = y := by
  unfold keyLt3 at h1 h2
  refine lexLt_conn ?_ ?_ h1 h2
  · exact fun _ _ ha hb => strLt_conn ha hb
  · exact fun _ _ ha hb => keyLt2_conn ha hb

/-- The non-strict three-component row order is transitive. -/
theorem rowLe3_trans {a b c : Row}
    (h1 : rowLt3 b a = false) (h2 : rowLt3 c b = false) : rowLt3 c a = false := by
  unfold rowLt3 at h1 h2 ⊢
  exact ble_trans keyLt3_irrefl (fun _ _ _ ha hb => keyLt3_trans ha hb)
    (fun _ _ ha hb => keyLt3_conn ha hb) h1 h2

/-- The strict three-component row order is asymmetric. -/
theorem rowLt3_asym {a b : Row} (h : rowLt3 a b = true) : rowLt3 b a = false := by
  unfold rowLt3 at h ⊢
  exact blt_asym keyLt3_irrefl (fun _ _ _ ha hb => keyLt3_trans ha hb) h

/-- The non-strict two-component row order is transitive. -/
theorem rowLe2_trans {a b c : Row}
    (h1 : rowLt2 b a = false) (h2 : rowLt2 c b = false) : rowLt2 c a = false := by
  unfold rowLt2 at h1 h2 ⊢
  exact ble_trans keyLt2_irrefl (fun _ _ _ ha hb => keyLt2_trans ha hb)
    (fun _ _ ha hb => keyLt2_conn ha hb) h1 h2

/-- The strict two-component row order is asymmetric. -/
theorem rowLt2_asym {a b : Row} (h : rowLt2 a b = true) : rowLt2 b a = false := by
  unfold rowLt2 at h ⊢
  exact blt_asym keyLt2_irrefl (fun _ _ _ ha hb => keyLt2_trans ha hb) h

/-- `pyInsert` permutes the inserted element into the list. -/
theorem pyInsert_perm {α : Type} (lt : α → α → Bool) (x : α) :
    ∀ l : List α, (pyInsert lt x l).Perm (x :: l)
  | [] => List.Perm.refl _
  | y :: ys => by
    rw [pyInsert]
    by_cases h : lt y x
    · rw [if_pos h]
      exact ((pyInsert_perm lt x ys).cons y).trans (List.Perm.swap x y ys)
    · rw [if_neg h]

/-- `pySorted` is a permutation. -/
theorem pySorted_perm {α : Type} (lt : α → α → Bool) :
    ∀ l : List α, (pySorted lt l).Perm l
  | [] => List.Perm.refl _
  | x :: xs =>
    (pyInsert_perm lt x (pySorted lt xs)).trans ((pySorted_perm lt xs).cons x)

/-- `pyInsert` preserves ascending order (each element at most every
later one, in the sense `lt later earlier = false`). -/
theorem pyInsert_pairwise {α : Type} {lt : α → α → Bool}
    (hasym : ∀ a b, lt a b = true → lt b a = false)
    (hletr : ∀ a b c, lt b a = false → lt c b = false → lt c a = false)
    (x : α) :
    ∀ {l : List α}, l.Pairwise (fun a b => lt b a = false) →
      (pyInsert lt x l).Pairwise (fun a b => lt b a = false)
  | [], _ => by simp [pyInsert]
  | y :: ys, hl => by
    rcases List.pairwise_cons.mp hl with ⟨hy, hys⟩
    rw [pyInsert]
    by_cases h : lt y x
    · rw [if_pos h]
      refine List.pairwise_cons.mpr ⟨?_, pyInsert_pairwise hasym hletr x hys⟩
      intro b hb
      have hb2 : b = x ∨ b ∈ ys := by
        simpa using (pyInsert_perm lt x ys).mem_iff.mp hb
      rcases hb2 with rfl | hmem
      · exact hasym _ _ h
      · exact hy b hmem
    · rw [if_neg h]
      refine List.pairwise_cons.mpr ⟨?_, hl⟩
      intro b hb
      rcases List.mem_cons.mp hb with rfl | hmem
      · simpa using h
      · exact hletr _ _ _ (by simpa using h) (hy b hmem)

/-- `pySorted` output is ascending. -/
theorem pySorted_pairwise {α : Type} {lt : α → α → Bool}
    (hasym : ∀ a b, lt a b = true → lt b a = false)
    (hletr : ∀ a b c, lt b a = false → lt c b = false → lt c a = false) :
    ∀ l : List α, (pySorted lt l).Pairwise (fun a b => lt b a = false)
  | [] => by simp [pySorted]
  | x :: xs => by
    rw [pySorted]
    exact pyInsert_pairwise hasym hletr x (pySorted_pairwise hasym hletr xs)

/-- C2 counterexample: with no event filter, the claim sorts export rows
by `(dept_name, name)`, but `export_participants` always sorts by
`(dept_name, event_name, name)`; on two same-department rows whose name
order and event order disagree the two orders differ. -/
theorem c2_sort_counterexample :
    (exportRows stC2 none none).map (fun r => r.name.getD "") = ["Zoe", "Amy"] ∧
    (exportRowsClaim stC2 none none).map (fun r => r.name.getD "") = ["Amy", "Zoe"] ∧
    exportRows stC2 none none ≠ exportRowsClaim stC2 none none := by
  refine ⟨by decide, by decide, by decide⟩

/-- C2 (amended): over stores in which every participant document
carries a `name` field — outside that regime a listing row holds a
Python `None` name and CPython's sort can raise `TypeError`, so nothing
is claimed there — the participant listing (`view_participants`) has
only present (string) names in its rows and is a permutation of its
filtered rows, sorted ascending by the lexicographic tuple
`(dept_name, event_name, name)` when an event selector is active and by
`(dept_name, name)` otherwise.  The export row list, whose fields are
all defaulted to `''` at construction, is unconditionally a permutation
of its filtered rows sorted ascending by `(dept_name, event_name,
name)`, regardless of whether an event filter is active.  Comparisons
are case-sensitive code-point comparisons with `""` for missing
values. -/
theorem c2_sort_amended (st : Store) (dept_id event_sel event_id : Option String) :
    ((∀ p ∈ st.participants, (docField p.2 "name").isSome = true) →
      ((∀ r ∈ viewRowsUnsorted st dept_id event_sel, r.name.isSome = true) ∧
       ((viewParticipants st dept_id event_sel).Perm
         (viewRowsUnsorted st dept_id event_sel)) ∧
       (pyTruthy event_sel = true →
         (viewParticipants st dept_id event_sel).Pairwise
           (fun a b => rowLt3 b a = false)) ∧
       (pyTruthy event_sel = false →
         (viewParticipants st dept_id event_sel).Pairwise
           (fun a b => rowLt2 b a = false)))) ∧
    ((exportRows st dept_id event_id).Perm
      (exportRowsUnsorted st dept_id event_id)) ∧
    ((exportRows st dept_id event_id).Pairwise
      (fun a b => rowLt3 b a = false)) := by
  refine ⟨?_, ?_, ?_⟩
  · intro hnames
    refine ⟨?_, ?_, ?_, ?_⟩
    · intro r hr
      rcases List.mem_filterMap.mp hr with ⟨p, hp, hpr⟩
      rcases List.mem_map.mp hp with ⟨pr, hpr2, rfl⟩
      by_cases hk : viewKeep (deptNameOf st dept_id) event_sel pr.2
      · rw [if_pos hk, Option.some_inj] at hpr
        rw [← hpr]
        exact hnames pr hpr2
      · rw [if_neg hk] at hpr
        cases hpr
    · unfold viewParticipants
      by_cases h : pyTruthy event_sel
      · rw [if_pos h]
        exact pySorted_perm _ _
      · rw [if_neg h]
        exact pySorted_perm _ _
    · intro h
      unfold viewParticipants
      rw [if_pos h]
      refine pySorted_pairwise ?_ ?_ _
      · exact fun _ _ ha => rowLt3_asym ha
      · exact fun _ _ _ h1 h2 => rowLe3_trans h1 h2
    · intro h
      unfold viewParticipants
      rw [if_neg (by simp [h])]
      refine pySorted_pairwise ?_ ?_ _
      · exact fun _ _ ha => rowLt2_asym ha
      · exact fun _ _ _ h1 h2 => rowLe2_trans h1 h2
  · exact pySorted_perm _ _
  · unfold exportRows
    refine pySorted_pairwise ?_ ?_ _
    · exact fun _ _ ha => rowLt3_asym ha
    · exact fun _ _ _ h1 h2 => rowLe3_trans h1 h2

/-- Witness for C2 (amended) at a concrete store (all participant
documents carry names) and active event selector. -/
theorem c2_sort_witness :
    (viewParticipants stC2 none (some "A")).Pairwise
      (fun a b => rowLt3 b a = false) :=
  ((c2_sort_amended stC2 none (some "A") none).1 (by decide)).2.2.1 (by decide)

/-- The rows gathered by the batching loop are exactly the concatenation
of the rows of its issued queries, one block per query. -/
theorem gatherLoop_rows (st : Store) (emap : List (String × EventDoc)) :
    ∀ ids : List String,
      (gatherLoop st emap ids).2 =
        ((gatherLoop st emap ids).1.map (gatherBatchRows st emap)).flatten
  | [] => by simp [gatherLoop]
  | e :: rest => by
    rw [gatherLoop]
    simp only [List.map_cons, List.flatten_cons]
    rw [gatherLoop_rows st emap ((e :: rest).drop 10)]
termination_by ids => ids.length
decreasing_by
  simp only [List.length_drop, List.length_cons]
  omega

/-- The issued queries partition the id list: concatenated in order they
give back the ids. -/
theorem gatherLoop_queries_flatten (st : Store) (emap : List (String × EventDoc)) :
    ∀ ids : List String, (gatherLoop st emap ids).1.flatten = ids
  | [] => by simp [gatherLoop]
  | e :: rest => by
    rw [gatherLoop]
    simp only [List.flatten_cons]
    rw [gatherLoop_queries_flatten st emap ((e :: rest).drop 10)]
    exact List.take_append_drop 10 (e :: rest)
termination_by ids => ids.length
decreasing_by
  simp only [List.length_drop, List.length_cons]
  omega

/-- Every issued query is non-empty and holds at most 10 ids. -/
theorem gatherLoop_queries_sizes (st : Store) (emap : List (String × EventDoc)) :
    ∀ ids : List String, ∀ b ∈ (gatherLoop st emap ids).1, b ≠ [] ∧ b.length ≤ 10
  | [] => by simp [gatherLoop]
  | e :: rest => by
    rw [gatherLoop]
    intro b hb
    rcases List.mem_cons.mp hb with rfl | hmem
    · refine ⟨by simp, ?_⟩
      simpa using List.length_take_le 10 (e :: rest)
    · exact gatherLoop_queries_sizes st emap ((e :: rest).drop 10) b hmem
termination_by ids => ids.length
decreasing_by
  simp only [List.length_drop, List.length_cons]
  omega

/-- The number of issued queries is the number of batches of 10,
rounding up. -/
theorem gatherLoop_queries_count (st : Store) (emap : List (String × EventDoc)) :
    ∀ ids : List String, (gatherLoop st emap ids).1.length = (ids.length + 9) / 10
  | [] => by simp [gatherLoop]
  | e :: rest => by
    rw [gatherLoop]
    simp only [List.length_cons]
    rw [gatherLoop_queries_count st emap ((e :: rest).drop 10)]
    simp only [List.length_drop, List.length_cons]
    omega
termination_by ids => ids.length
decreasing_by
  simp only [List.length_drop, List.length_cons]
  omega

/-- A single query suffices for at most 10 ids. -/
theorem gatherLoop_queries_small (st : Store) (emap : List (String × EventDoc)) :
    ∀ l : List String, l ≠ [] → l.length ≤ 10 → (gatherLoop st emap l).1 = [l]
  | [], h, _ => absurd rfl h
  | e :: rest, _, hlen => by
    rw [gatherLoop]
    have h1 : (e :: rest).take 10 = e :: rest := List.take_of_length_le hlen
    have h2 : (e :: rest).drop 10 = [] := List.drop_eq_nil_of_le hlen
    rw [h1, h2]
    simp [gatherLoop]

/-- Filtering by a disjunction of mutually exclusive predicates is, up to
permutation, the concatenation of the two filters. -/
theorem filter_or_perm {α : Type} (p q : α → Bool) :
    ∀ l : List α, (∀ a ∈ l, ¬(p a = true ∧ q a = true)) →
      (l.filter (fun a => p a || q a)).Perm (l.filter p ++ l.filter q)
  | [], _ => by simp
  | a :: t, hdisj => by
    have hd : ∀ x ∈ t, ¬(p x = true ∧ q x = true) :=
      fun x hx => hdisj x (List.mem_cons_of_mem a hx)
    by_cases hp : p a
    · have hq : q a = false := by
        cases hqv : q a with
        | false => rfl
        | true => exact absurd ⟨hp, hqv⟩ (hdisj a (List.mem_cons_self a t))
      simp only [List.filter_cons, hp, hq, Bool.true_or, if_pos, cond_true]
      simpa using (filter_or_perm p q t hd).cons a
    · have hp' : p a = false := by simpa using hp
      by_cases hq : q a
      · simp only [List.filter_cons, hp', hq, Bool.false_or]
        simpa using ((filter_or_perm p q t hd).cons a).trans List.perm_middle.symm
      · have hq' : q a = false := by simpa using hq
        simp only [List.filter_cons, hp', hq', Bool.false_or]
        simpa using filter_or_perm p q t hd

/-- An `in`-query over the concatenation of two disjoint id lists matches,
up to permutation, the two separate queries in sequence. -/
theorem regsInBatch_append (st : Store) (A B : List String)
    (hdisj : ∀ e, e ∈ A → e ∉ B) :
    (regsInBatch st (A ++ B)).Perm (regsInBatch st A ++ regsInBatch st B) := by
  unfold regsInBatch
  have hfun :
      (fun r : RegRecord =>
        match r.event_id with
        | some e => (A ++ B).contains e
        | none => false)
      = fun r =>
        (match r.event_id with
         | some e => A.contains e
         | none => false) ||
        (match r.event_id with
         | some e => B.contains e
         | none => false) := by
    funext r
    cases r.event_id with
    | none => simp
    | some e => simp
  rw [hfun]
  apply filter_or_perm
  intro r _ hpq
  rcases hpq with ⟨h1, h2⟩
  cases hre : r.event_id with
  | none => rw [hre] at h1; cases h1
  | some e =>
    rw [hre] at h1 h2
    exact hdisj e (by simpa using h1) (by simpa using h2)

/-- Batch rows over a concatenation of disjoint id lists split, up to
permutation. -/
theorem gatherBatchRows_append (st : Store) (emap : List (String × EventDoc))
    (A B : List String) (hdisj : ∀ e, e ∈ A → e ∉ B) :
    (gatherBatchRows st emap (A ++ B)).Perm
      (gatherBatchRows st emap A ++ gatherBatchRows st emap B) := by
  unfold gatherBatchRows
  have h := (regsInBatch_append st A B hdisj).filterMap (gatherRow st emap)
  rw [List.filterMap_append] at h
  exact h

/-- Over duplicate-free event ids, batching is invisible: the gathered
rows are a permutation of the rows of one hypothetical unbatched query
over all ids. -/
theorem gatherLoop_union (st : Store) (emap : List (String × EventDoc)) :
    ∀ ids : List String, ids.Nodup →
      (gatherLoop st emap ids).2.Perm (gatherBatchRows st emap ids)
  | [], _ => by
    simp only [gatherLoop]
    have hreg : regsInBatch st [] = [] := by
      unfold regsInBatch
      apply List.filter_eq_nil_iff.mpr
      intro a _
      cases a.event_id <;> simp
    unfold gatherBatchRows
    rw [hreg]
    simp
  | e :: rest, hnd => by
    have ih := gatherLoop_union st emap ((e :: rest).drop 10)
      ((List.drop_sublist 10 (e :: rest)).nodup hnd)
    have hdisj : ∀ x ∈ (e :: rest).take 10, x ∉ (e :: rest).drop 10 := by
      intro x hx hxd
      exact List.disjoint_take_drop hnd (le_refl 10) hx hxd
    have hsplit : (e :: rest).take 10 ++ (e :: rest).drop 10 = e :: rest :=
      List.take_append_drop 10 (e :: rest)
    have h2 := gatherBatchRows_append st emap ((e :: rest).take 10)
      ((e :: rest).drop 10) hdisj
    rw [hsplit] at h2
    rw [gatherLoop]
    exact (ih.append_left (gatherBatchRows st emap ((e :: rest).take 10))).trans h2.symm
termination_by ids => ids.length
decreasing_by
  simp only [List.length_drop, List.length_cons]
  omega

/-- C3: for every non-empty list of event ids, the Registration-mode
gathering loop partitions the ids into consecutive batches of at most 10
(non-empty, ⌈n/10⌉ of them), issues exactly one `in`-query per batch, and
returns the concatenation of the per-batch rows; over duplicate-free ids
the result is, up to order, the union of all matching registrations'
rows; for 15 ids exactly 2 queries are issued, of 10 then 5 ids. -/
theorem c3_batching (st : Store) (emap : List (String × EventDoc)) (ids : List String)
    (hne : ids ≠ []) :
    ((gatherLoop st emap ids).1.flatten = ids) ∧
    (∀ b ∈ (gatherLoop st emap ids).1, b ≠ [] ∧ b.length ≤ 10) ∧
    ((gatherLoop st emap ids).1.length = (ids.length + 9) / 10) ∧
    ((gatherLoop st emap ids).2 =
      ((gatherLoop st emap ids).1.map (gatherBatchRows st emap)).flatten) ∧
    (ids.Nodup → (gatherLoop st emap ids).2.Perm (gatherBatchRows st emap ids)) ∧
    (ids.length = 15 → (gatherLoop st emap ids).1.map List.length = [10, 5]) := by
  refine ⟨gatherLoop_queries_flatten st emap ids, gatherLoop_queries_sizes st emap ids,
    gatherLoop_queries_count st emap ids, gatherLoop_rows st emap ids,
    gatherLoop_union st emap ids, ?_⟩
  intro h15
  cases ids with
  | nil => exact absurd rfl hne
  | cons e rest =>
    rw [gatherLoop]
    simp only [List.map_cons]
    have hdl : ((e :: rest).drop 10).length = 5 := by
      simp only [List.length_drop]
      omega
    have hdn : (e :: rest).drop 10 ≠ [] := by
      intro hz
      rw [hz] at hdl
      simp at hdl
    rw [gatherLoop_queries_small st emap _ hdn (by omega)]
    simp only [List.map_cons, List.map_nil, List.length_take, hdl, h15]
    norm_num

/-- The 15 concrete event ids of the C3 witness. -/
def idsC3 : List String :=
  ["1", "2", "3", "4", "5", "6", "7", "8", "9", "10", "11", "12", "13", "14", "15"]

/-- Witness for C3 at 15 concrete event ids over the empty store. -/
theorem c3_batching_witness :
    (gatherLoop ({} : Store) [] idsC3).1.map List.length = [10, 5] ∧
    (gatherLoop ({} : Store) [] idsC3).2.Perm (gatherBatchRows ({} : Store) [] idsC3) :=
  ⟨(c3_batching {} [] idsC3 (by decide)).2.2.2.2.2 (by decide),
   (c3_batching {} [] idsC3 (by decide)).2.2.2.2.1 (by decide)⟩

/-- The length of a `filterMap` counts the inputs the function keeps. -/
theorem length_filterMap_countP {α β : Type} (f : α → Option β) :
    ∀ l : List α, (l.filterMap f).length = l.countP (fun a => (f a).isSome)
  | [] => rfl
  | a :: t => by
    cases hf : f a <;>
      simp [List.filterMap_cons, hf, List.countP_cons, length_filterMap_countP f t]

/-- C6 (amended): within each batched query, a registration contributes a
row iff the Resolver yields a truthy (non-empty) record, so the gathered
row count is the total over all issued queries of the matching
registrations whose resolution is non-empty; a `NotFound` resolution is
skipped silently (it maps to no row) and never aborts the loop. -/
theorem c6_skip_amended (st : Store) (emap : List (String × EventDoc))
    (ids : List String) :
    ((gatherLoop st emap ids).2.length =
      ((gatherLoop st emap ids).1.map (fun b =>
        (regsInBatch st b).countP (fun r =>
          match resolveParticipant st r with
          | some p => !p.isEmpty
          | none => false))).sum) ∧
    (∀ reg, resolveParticipant st reg = none → gatherRow st emap reg = none) := by
  constructor
  · rw [gatherLoop_rows st emap ids, List.length_flatten, List.map_map]
    congr 1
    apply List.map_congr_left
    intro b _
    show (gatherBatchRows st emap b).length = _
    unfold gatherBatchRows
    rw [length_filterMap_countP]
    apply List.countP_congr
    intro r _
    cases hres : resolveParticipant st r with
    | none => simp [gatherRow, hres]
    | some p =>
      cases hemp : p.isEmpty <;> simp [gatherRow, hres, hemp]
  · intro reg h
    unfold gatherRow
    rw [h]

/-- C6 counterexample: registration `r1` of `stC6` is resolvable (the
Resolver returns the existing, empty document `p1`), yet the listing
drops its row — the row count is 0 while the number of resolvable
registrations is 1. -/
theorem c6_skip_counterexample :
    gatherParticipants stC6 "d1" none = [] ∧
    resolvableCount stC6 (regsInBatch stC6 ["1"]) = 1 := by
  constructor
  · have hids : gatherEventIds stC6 "d1" none =
        (["1"], [("1", { department := some "d1", name := some "E" })]) := by decide
    unfold gatherParticipants
    rw [if_neg (by decide), hids]
    simp only
    rw [if_neg (by decide)]
    rw [gatherLoop]
    simp only [show (["1"] : List String).take 10 = ["1"] from rfl,
      show (["1"] : List String).drop 10 = [] from rfl]
    rw [gatherLoop]
    simp only [List.append_nil]
    decide
  · decide

/-- Folding set insertion over a list accumulates exactly the union with
the list's element set. -/
theorem foldl_insert_toFinset :
    ∀ (l : List String) (s : Finset String),
      l.foldl (fun s i => insert i s) s = s ∪ l.toFinset
  | [], s => by simp
  | a :: t, s => by
    rw [List.foldl_cons, foldl_insert_toFinset t (insert a s)]
    ext x
    simp [List.toFinset_cons]

/-- C7: the dashboard's unique participant count is the cardinality of
the set of normalized identities `lower(strip(email or phone or doc-id))`
over the participants collection; consequently two participant documents
whose emails differ only in letter case or surrounding whitespace count
as one. -/
theorem c7_unique_count (st : Store) :
    (uniqueParticipantCount st = (uniqueIdentSet st).card) ∧
    (∀ (id1 id2 : String) (p1 p2 : Doc) (e1 e2 : String),
      docField p1 "email" = some e1 → docField p2 "email" = some e2 →
      e1 ≠ "" → e2 ≠ "" → normalizeIdent e1 = normalizeIdent e2 →
      uniqueParticipantCount { participants := [(id1, p1), (id2, p2)] } = 1) := by
  constructor
  · unfold uniqueParticipantCount uniqueIdentSet
    rw [foldl_insert_toFinset]
    simp
  · intro id1 id2 p1 p2 e1 e2 h1 h2 hne1 hne2 hnorm
    have hi1 : identOf id1 p1 = some (normalizeIdent e1) := by
      unfold identOf
      rw [h1]
      simp [pyOr, pyTruthy, hne1]
    have hi2 : identOf id2 p2 = some (normalizeIdent e2) := by
      unfold identOf
      rw [h2]
      simp [pyOr, pyTruthy, hne2]
    unfold uniqueParticipantCount
    simp only [List.filterMap_cons, hi1, hi2, List.filterMap_nil]
    rw [foldl_insert_toFinset]
    simp [hnorm]

/-- Witness for C7 at two concrete documents whose emails differ only in
case and surrounding whitespace. -/
theorem c7_unique_count_witness :
    uniqueParticipantCount
      { participants :=
          [("d1", [("email", " Foo@X.com ")]), ("d2", [("email", "foo@x.com")])] } = 1 :=
  (c7_unique_count {}).2 "d1" "d2" [("email", " Foo@X.com ")] [("email", "foo@x.com")]
    " Foo@X.com " "foo@x.com" rfl rfl (by decide) (by decide) (by decide)

/-- The accumulator fold of the max-id scan computes the maximum of the
accumulator and all parsed ids. -/
theorem maxEventId_foldl :
    ∀ (evs : List (String × EventDoc)) (acc : Int), 0 ≤ acc →
      evs.foldl
        (fun m p =>
          match pyInt? p.1 with
          | some eid => if eid > m then eid else m
          | none => m) acc
      = max acc ((numericEventIds evs).foldr max 0)
  | [], acc, _ => by
    simp only [List.foldl_nil, numericEventIds, List.filterMap_nil, List.foldr_nil]
    omega
  | p :: t, acc, h => by
    rw [List.foldl_cons]
    cases hp : pyInt? p.1 with
    | none =>
      simp only [numericEventIds, List.filterMap_cons, hp]
      exact maxEventId_foldl t acc h
    | some e =>
      simp only [numericEventIds, List.filterMap_cons, hp, List.foldr_cons]
      have step : (if e > acc then e else acc) = max acc e := by omega
      rw [step, maxEventId_foldl t (max acc e) (by omega)]
      have : numericEventIds t = t.filterMap (fun q => pyInt? q.1) := rfl
      rw [← this]
      omega

/-- `foldr max 0` over integers is non-negative. -/
theorem foldr_max_nonneg : ∀ l : List Int, 0 ≤ l.foldr max 0
  | [] => le_refl 0
  | x :: t => le_trans (foldr_max_nonneg t) (le_max_right x _)

/-- Every list element is at most `foldr max 0`. -/
theorem le_foldr_max : ∀ (l : List Int), ∀ x ∈ l, x ≤ l.foldr max 0
  | y :: t, x, hx => by
    rcases List.mem_cons.mp hx with rfl | hmem
    · exact le_max_left x _
    · exact le_trans (le_foldr_max t x hmem) (le_max_right y _)

/-- The code's max-id scan equals the maximum of the parsed event ids
(0 when none parses). -/
theorem maxEventId_eq (evs : List (String × EventDoc)) :
    maxEventId evs = (numericEventIds evs).foldr max 0 := by
  unfold maxEventId
  rw [maxEventId_foldl evs 0 (le_refl 0)]
  have := foldr_max_nonneg (numericEventIds evs)
  omega

/-- Setting a document and looking it up by the same id yields the
document. -/
theorem evLookup_docSetEvent :
    ∀ (evs : List (String × EventDoc)) (k : String) (d : EventDoc),
      evLookup (docSetEvent evs k d) k = some d := by
  intro evs k d
  unfold docSetEvent
  by_cases h : evs.any (fun p => p.1 = k)
  · rw [if_pos h]
    induction evs with
    | nil => simp at h
    | cons q t ih =>
      by_cases hq : q.1 = k
      · simp [evLookup, List.find?_cons, hq]
      · have ht : t.any (fun p => p.1 = k) := by
          rcases List.any_eq_true.mp h with ⟨p, hp, hpk⟩
          rcases List.mem_cons.mp hp with rfl | hmem
          · exact absurd (by simpa using hpk) hq
          · exact List.any_eq_true.mpr ⟨p, hmem, hpk⟩
        have := ih ht
        simpa [evLookup, List.find?_cons, hq] using this
  · rw [if_neg h]
    induction evs with
    | nil => simp [evLookup]
    | cons q t ih =>
      have hq : ¬ q.1 = k := by
        intro hqk
        exact h (List.any_eq_true.mpr ⟨q, List.mem_cons_self q t, by simpa using hqk⟩)
      have ht : ¬ t.any (fun p => p.1 = k) := by
        intro hta
        rcases List.any_eq_true.mp hta with ⟨p, hmem, hpk⟩
        exact h (List.any_eq_true.mpr ⟨p, List.mem_cons_of_mem q hmem, hpk⟩)
      have := ih ht
      simpa [evLookup, List.find?_cons, hq] using this

/-- C8: `add_event` assigns the new event the id `max + 1`, where `max`
is the largest existing event id that parses as an integer (0 when none
does), obtained by scanning all existing event documents — every parsed
existing id is strictly below the new one — and stores the new event
document under that id rendered as a numeric string, leaving all other
collections unchanged. -/
theorem c8_add_event (st : Store) (f : EventForm) (now : Nat) :
    ((addEvent st f now).2 =
      toString ((numericEventIds st.events).foldr max 0 + 1)) ∧
    (evLookup (addEvent st f now).1.events (addEvent st f now).2 =
      some
        { idField := some (maxEventId st.events + 1)
          department := some f.dept_id
          name := some f.name
          description := some f.description
          date := some f.date
          time := some f.time
          venue := some f.venue
          image_url := some f.image_url
          payment_qr_url := some
            (match (st.departments.find? (fun p => p.1 = f.dept_id)).map
                (fun p => p.2) with
             | some d => d.qr_url.getD ""
             | none => "")
          price := some f.price
          prize := some f.prize
          status := some f.status
          created_at := some now }) ∧
    (∀ p ∈ st.events, ∀ i : Int, pyInt? p.1 = some i → i < maxEventId st.events + 1) ∧
    ((addEvent st f now).1.departments = st.departments ∧
     (addEvent st f now).1.participants = st.participants ∧
     (addEvent st f now).1.users = st.users ∧
     (addEvent st f now).1.registrations = st.registrations) := by
  refine ⟨?_, ?_, ?_, rfl, rfl, rfl, rfl⟩
  · show toString (maxEventId st.events + 1) = _
    rw [maxEventId_eq]
  · exact evLookup_docSetEvent st.events _ _
  · intro p hp i hi
    rw [maxEventId_eq]
    have hle : i ≤ (numericEventIds st.events).foldr max 0 :=
      le_foldr_max _ i (List.mem_filterMap.mpr ⟨p, hp, hi⟩)
    omega

/-- Witness for C8: the parsed existing id 3 is strictly below the id
assigned next. -/
theorem c8_add_event_witness :
    (3 : Int) < maxEventId [("3", ({} : EventDoc))] + 1 :=
  (c8_add_event { events := [("3", {})] } {} 0).2.2.1 ("3", {})
    (by decide) 3 (by decide)

/-- Unfolding lookup over a cons cell. -/
theorem evLookup_cons (qk : String) (qv : EventDoc) (t : List (String × EventDoc))
    (k : String) :
    evLookup ((qk, qv) :: t) k = if qk = k then some qv else evLookup t k := by
  unfold evLookup
  rw [List.find?_cons]
  by_cases h : qk = k
  · simp [h]
  · simp [h]

/-- Updating only the entry with key `s` leaves lookups at other keys
unchanged. -/
theorem evLookup_map_update_ne (evs : List (String × EventDoc)) (s k : String)
    (f : EventDoc → EventDoc) (hk : k ≠ s) :
    evLookup (evs.map (fun p => if p.1 = s then (p.1, f p.2) else p)) k
      = evLookup evs k := by
  induction evs with
  | nil => rfl
  | cons q t ih =>
    obtain ⟨qk, qv⟩ := q
    rw [List.map_cons]
    dsimp only
    by_cases hq : qk = s
    · rw [if_pos hq, evLookup_cons, evLookup_cons]
      have h1 : ¬ qk = k := by
        rw [hq]
        exact fun h => hk h.symm
      rw [if_neg h1, if_neg h1]
      exact ih
    · rw [if_neg hq, evLookup_cons, evLookup_cons]
      by_cases hqk : qk = k
      · rw [if_pos hqk, if_pos hqk]
      · rw [if_neg hqk, if_neg hqk]
        exact ih

/-- Updating the entry with key `s` is visible at `s` exactly as the
update of the first stored document. -/
theorem evLookup_map_update_self (evs : List (String × EventDoc)) (s : String)
    (f : EventDoc → EventDoc) (ev : EventDoc) (h : evLookup evs s = some ev) :
    evLookup (evs.map (fun p => if p.1 = s then (p.1, f p.2) else p)) s
      = some (f ev) := by
  induction evs with
  | nil => simp [evLookup] at h
  | cons q t ih =>
    obtain ⟨qk, qv⟩ := q
    rw [evLookup_cons] at h
    rw [List.map_cons]
    dsimp only
    by_cases hq : qk = s
    · rw [if_pos hq] at h
      rw [if_pos hq, evLookup_cons, if_pos hq]
      rw [Option.some_inj] at h
      rw [h]
    · rw [if_neg hq] at h
      rw [if_neg hq, evLookup_cons, if_neg hq]
      exact ih h

/-- C10: `toggle_event_status` writes nothing for a falsy `event_id`
parameter or when no event document has that id; otherwise it updates
only the `status` field of exactly that document — to 0 when the current
status (defaulting to 1 when missing) equals 1, else to 1 — leaving
every other field of the document, every other event document, and every
other collection unchanged. -/
theorem c10_toggle_frame (st : Store) (event_id : Option String) :
    (pyTruthy event_id = false → toggleEventStatus st event_id = st) ∧
    (∀ s, event_id = some s → evLookup st.events s = none →
      toggleEventStatus st event_id = st) ∧
    (∀ s ev, event_id = some s → s ≠ "" → evLookup st.events s = some ev →
      ((toggleEventStatus st event_id).departments = st.departments ∧
       (toggleEventStatus st event_id).participants = st.participants ∧
       (toggleEventStatus st event_id).users = st.users ∧
       (toggleEventStatus st event_id).registrations = st.registrations) ∧
      (∀ k, k ≠ s →
        evLookup (toggleEventStatus st event_id).events k = evLookup st.events k) ∧
      (evLookup (toggleEventStatus st event_id).events s =
        some (setStatus (if ev.status.getD 1 = 1 then 0 else 1) ev)) ∧
      (∀ d, evLookup (toggleEventStatus st event_id).events s = some d →
        d.idField = ev.idField ∧ d.department = ev.department ∧
        d.dept_id = ev.dept_id ∧ d.name = ev.name ∧
        d.description = ev.description ∧ d.date = ev.date ∧ d.time = ev.time ∧
        d.venue = ev.venue ∧ d.image_url = ev.image_url ∧
        d.payment_qr_url = ev.payment_qr_url ∧ d.price = ev.price ∧
        d.prize = ev.prize ∧ d.created_at = ev.created_at ∧
        d.status = some (if ev.status.getD 1 = 1 then 0 else 1))) := by
  refine ⟨?_, ?_, ?_⟩
  · intro h
    unfold toggleEventStatus
    rw [h]
    simp
  · rintro s rfl hnone
    unfold toggleEventStatus
    by_cases hs : pyTruthy (some s)
    · rw [if_pos hs]
      simp only [Option.getD_some]
      rw [hnone]
    · rw [if_neg hs]
  · rintro s ev rfl hs hev
    have htr : pyTruthy (some s) = true := by simp [pyTruthy, hs]
    have htoggle : toggleEventStatus st (some s) =
        { st with
          events := st.events.map
            (fun p =>
              if p.1 = s then
                (p.1, setStatus (if ev.status.getD 1 = 1 then 0 else 1) p.2)
              else p) } := by
      unfold toggleEventStatus
      rw [if_pos htr]
      simp only [Option.getD_some]
      rw [hev]
    rw [htoggle]
    refine ⟨⟨rfl, rfl, rfl, rfl⟩, ?_, ?_, ?_⟩
    · intro k hk
      exact evLookup_map_update_ne st.events s k
        (setStatus (if ev.status.getD 1 = 1 then 0 else 1)) hk
    · exact evLookup_map_update_self st.events s
        (setStatus (if ev.status.getD 1 = 1 then 0 else 1)) ev hev
    · intro d hd
      rw [evLookup_map_update_self st.events s
        (setStatus (if ev.status.getD 1 = 1 then 0 else 1)) ev hev,
        Option.some_inj] at hd
      subst hd
      exact ⟨rfl, rfl, rfl, rfl, rfl, rfl, rfl, rfl, rfl, rfl, rfl, rfl, rfl, rfl⟩

/-- Witness for C10 at a concrete one-event store: toggling an open event
closes it and nothing else changes. -/
theorem c10_toggle_frame_witness :
    evLookup
      (toggleEventStatus
        { events := [("1", { name := some "E", status := some 1 })] }
        (some "1")).events "1" =
      some (setStatus 0 { name := some "E", status := some 1 }) :=
  ((c10_toggle_frame { events := [("1", { name := some "E", status := some 1 })] }
      (some "1")).2.2 "1" { name := some "E", status := some 1 }
      rfl (by decide) (by decide)).2.2.1
